import Mathlib

/-!
# Verification of the von-x message exchange core (`vonx/services/exchange.py`)

A shallow embedding of the exchange message bus: the typed payload base class
(`ExchangeMessage`), the envelope (`MessageWrapper`), the broker routing loop
(`Exchange._run`), the client receive loop (`Exchange.recv`), the worker poll
loop (`MessageProcessor._poll_messages`) and the request executor
(`RequestExecutor._send_request` / `_cancel_request` / `_handle_message`).

Python dictionaries are embedded as association lists with in-place update
(first occurrence wins, new keys appended at the end, matching insertion
order); `collections.deque` as a Lean `List` (append at the tail, pop from
the head); `concurrent.futures.Future` as an explicit state datatype.
-/

namespace Vonx

/-! ## Python values

The exchange passes payloads that are either primitive Python values
(strings such as the literal `'stop'`, ints, bools, `None`) or instances of
`ExchangeMessage` subclasses such as `ExchangeError`.  `ExchangeMessage`
defines no `__eq__`, so instances compare by object identity; we therefore
carry an object id on each instance. -/

/-- A primitive Python value appearing in message fields. -/
inductive PyVal where
  | none
  | str (s : String)
  | int (n : Int)
  | bool (b : Bool)
deriving Repr, DecidableEq

/-- A Python type usable in an `ExchangeMessage` field schema
(the second component of a `_fields` tuple). -/
inductive PyType where
  | str
  | int
  | bool
deriving Repr, DecidableEq

/-- `isinstance(val, ftype)` for primitive values.  `None` is an instance of
no declared type here, and Python's `bool` is a subclass of `int`, so
`isinstance(True, int)` holds. -/
def isinstance : PyVal → PyType → Bool
  | PyVal.str _, PyType.str => true
  | PyVal.int _, PyType.int => true
  | PyVal.bool _, PyType.bool => true
  | PyVal.bool _, PyType.int => true
  | _, _ => false

/-- An `ExchangeMessage` instance: a class tag, the tuple of field values
(`self._values`), and the Python object identity (`id(self)`), which is what
`==` compares because `ExchangeMessage` defines no `__eq__`. -/
structure MsgObj where
  objId : Nat
  clsName : String
  values : List PyVal
deriving Repr, DecidableEq

/-- The payload slot of an envelope: a primitive value or a message object. -/
inductive Payload where
  | prim (v : PyVal)
  | msg (m : MsgObj)
deriving Repr, DecidableEq

/-- Python `==` on two message objects: `ExchangeMessage` inherits
`object.__eq__`, which is identity comparison. -/
def msgObjPyEq (a b : MsgObj) : Bool := a.objId == b.objId

/-- Python `==` on payloads: primitives compare by value, message objects by
identity, and a primitive never equals a message object. -/
def payloadPyEq : Payload → Payload → Bool
  | Payload.prim a, Payload.prim b => a == b
  | Payload.msg a, Payload.msg b => msgObjPyEq a b
  | _, _ => false

/-- `isinstance(p, ExchangeError)` on a payload. -/
def isExchangeError : Payload → Bool
  | Payload.msg m => m.clsName == "ExchangeError"
  | _ => false

/-- `received.message == 'stop'`: true exactly for the primitive string
`"stop"` (a message object compares unequal to any string). -/
def isStopMsg (p : Payload) : Bool :=
  payloadPyEq p (Payload.prim (PyVal.str "stop"))

/-! ## Envelopes

`MessageWrapper` is a `NamedTuple` with fields `from_pid`, `ident`,
`message`, `ref`; `ref` defaults to `None`.  `str` fields may be `None`
(e.g. `ident` on a no-reply send), so they are embedded as `Option String`. -/

/-- The envelope passed through the exchange
(`MessageWrapper(from_pid, ident, message, ref)`). -/
structure MessageWrapper where
  from_pid : Option String
  ident : Option String
  message : Payload
  ref : Option String
deriving Repr, DecidableEq

/-- `NamedTuple` equality is tuple equality: componentwise Python `==`
(`Option String` components compare by value, the payload by `payloadPyEq`). -/
def wrapperPyEq (a b : MessageWrapper) : Bool :=
  a.from_pid == b.from_pid && a.ident == b.ident
    && payloadPyEq a.message b.message && a.ref == b.ref

/-- Python truthiness of the `ref` field (`if received.ref:`):
`None` and the empty string are falsy. -/
def refTruthy : Option String → Option String
  | Option.none => Option.none
  | Option.some s => if s = "" then Option.none else Option.some s

/-- An entry of the executor's out-queue (`QueuedMessage(to_pid, message)`). -/
structure QueuedMessage where
  to_pid : String
  message : MessageWrapper
deriving Repr, DecidableEq

/-! ## Association lists (Python `dict` embedding)

Keys are looked up at their first occurrence; `aset` updates the first
occurrence in place or appends a fresh key at the tail, exactly the
insertion-order behaviour of a Python `dict`. -/

/-- `d.get(k)` / `k in d`. -/
def alookup {β : Type} (k : String) : List (String × β) → Option β
  | [] => Option.none
  | (k2, v) :: rest => if k2 = k then Option.some v else alookup k rest

/-- `d[k] = v`: update the first occurrence in place, else append. -/
def aset {β : Type} (k : String) (v : β) : List (String × β) → List (String × β)
  | [] => [(k, v)]
  | (k2, w) :: rest =>
      if k2 = k then (k2, v) :: rest else (k2, w) :: aset k v rest

/-! ## The broker routing loop (`Exchange._run`)

`queue` maps a recipient id to its FIFO `deque` of envelopes, `processed`
maps a recipient id to its dequeue count, and `pending` is a Python int
counter of enqueued-but-not-dequeued envelopes. -/

/-- The private state of the routing loop. -/
structure BrokerState where
  pending : Int
  processed : List (String × Nat)
  queue : List (String × List MessageWrapper)
deriving Repr, DecidableEq

/-- The initial broker state (`pending = 0`, empty maps). -/
def brokerInit : BrokerState := ⟨0, [], []⟩

/-- A command received over the command pipe.  (`stop` exits the loop and is
not part of the state-transition claims.) -/
inductive Cmd where
  | send (to_pid : String) (env : MessageWrapper)
  | recv (to_pid : String)
  | status
deriving Repr, DecidableEq

/-- A reply written back on the command pipe. -/
inductive Reply where
  | boolr (b : Bool)
  | envr (m : Option MessageWrapper)
  | statr (pending : Int) (processed : List (String × Nat)) (total : Nat)
deriving Repr, DecidableEq

/-- The `send` branch: create the recipient's deque if absent, append the
envelope, and increment `pending`; the reply is `True`. -/
def stepSend (s : BrokerState) (to_pid : String) (env : MessageWrapper) :
    BrokerState :=
  let q :=
    match alookup to_pid s.queue with
    | Option.none => aset to_pid [] s.queue
    | Option.some _ => s.queue
  let q2 := aset to_pid (((alookup to_pid q).getD []) ++ [env]) q
  { s with queue := q2, pending := s.pending + 1 }

/-- The `recv` branch: if the recipient has a non-empty deque, pop its head,
bump `processed[to_pid]` and decrement `pending`; an absent key or an empty
deque (`IndexError` from `popleft`, caught) leaves the state unchanged and
returns `None`. -/
def stepRecv (s : BrokerState) (to_pid : String) :
    BrokerState × Option MessageWrapper :=
  match alookup to_pid s.queue with
  | Option.none => (s, Option.none)
  | Option.some [] => (s, Option.none)
  | Option.some (e :: es) =>
      ({ pending := s.pending - 1,
         processed :=
           aset to_pid (((alookup to_pid s.processed).getD 0) + 1) s.processed,
         queue := aset to_pid es s.queue },
       Option.some e)

/-- Sum of the values of the `processed` map (`sum(processed.values())`). -/
def sumProcessed (l : List (String × Nat)) : Nat :=
  (l.map (fun p => p.2)).sum

/-- Sum of the lengths of all per-recipient queues. -/
def sumQueueLens (l : List (String × List MessageWrapper)) : Nat :=
  (l.map (fun p => p.2.length)).sum

/-- One iteration of the routing loop: dispatch on the command and produce
the successor state and the reply sent back over the pipe. -/
def brokerStep (s : BrokerState) : Cmd → BrokerState × Reply
  | Cmd.send to_pid env => (stepSend s to_pid env, Reply.boolr true)
  | Cmd.recv to_pid =>
      let (s2, m) := stepRecv s to_pid
      (s2, Reply.envr m)
  | Cmd.status =>
      (s, Reply.statr s.pending s.processed (sumProcessed s.processed))

/-- Run the routing loop over a list of commands, collecting the replies. -/
def brokerRun (s : BrokerState) : List Cmd → BrokerState × List Reply
  | [] => (s, [])
  | c :: rest =>
      let (s1, r) := brokerStep s c
      let (s2, rs) := brokerRun s1 rest
      (s2, r :: rs)

/-- The state after running a command list (first component of `brokerRun`). -/
def brokerRunState (s : BrokerState) (cs : List Cmd) : BrokerState :=
  (brokerRun s cs).1

/-- `Exchange.send`: issue the `send` command over the pipe (after taking
`req_cond`), return the broker's reply unchanged as the status.  The
condition broadcast does not affect the broker state. -/
def exchange_send (s : BrokerState) (to_pid : String)
    (wrapper : MessageWrapper) : BrokerState × Reply :=
  brokerStep s (Cmd.send to_pid wrapper)

/-- The recipient's queue viewed as a list (`queue.get(r, deque())`). -/
def queueAt (r : String) (s : BrokerState) : List MessageWrapper :=
  (alookup r s.queue).getD []

/-- The envelopes accepted by `send` commands for recipient `r`, in order. -/
def sentFor (r : String) (cs : List Cmd) : List MessageWrapper :=
  cs.filterMap (fun c =>
    match c with
    | Cmd.send p env => if p = r then Option.some env else Option.none
    | _ => Option.none)

/-- The envelopes returned by successful `recv` commands for recipient `r`,
in the order the routing loop produced them. -/
def recvdFor (s : BrokerState) (r : String) : List Cmd → List MessageWrapper
  | [] => []
  | c :: rest =>
      let (s1, rep) := brokerStep s c
      let tl := recvdFor s1 r rest
      match c, rep with
      | Cmd.recv p, Reply.envr (Option.some e) =>
          if p = r then e :: tl else tl
      | _, _ => tl

/-- A `status` reply carries `total = sum(processed.values())`; other replies
are vacuously fine. -/
def statOk : Reply → Bool
  | Reply.statr _ processed total => total == sumProcessed processed
  | _ => true

/-- The broker's `pending` counter always equals the total queued length. -/
def pendingInv (s : BrokerState) : Prop :=
  s.pending = (sumQueueLens s.queue : Int)

/-- A sample envelope used to instantiate concrete runs. -/
def sampleEnv : MessageWrapper :=
  ⟨Option.some "w", Option.some "i1", Payload.prim (PyVal.str "hello"),
    Option.none⟩

/-- A second sample envelope. -/
def sampleEnv2 : MessageWrapper :=
  ⟨Option.some "w", Option.some "i2", Payload.prim (PyVal.int 7),
    Option.none⟩

/-- A sample reply envelope referring to request ident `"a"`. -/
def sampleReply : MessageWrapper :=
  ⟨Option.some "w", Option.some "j", Payload.prim (PyVal.str "ok"),
    Option.some "a"⟩

/-! ## Futures (`concurrent.futures.Future`)

A future is pending, finished with a result, finished with an exception, or
cancelled.  `done()` is true in every state but pending; `set_result` and
`set_exception` raise `InvalidStateError` unless the future is pending
(modelled by returning `none`); `cancel()` moves a pending future to
cancelled and is a no-op returning `False` on a finished future. -/

/-- The state of a `concurrent.futures.Future`. -/
inductive FutState where
  | pending
  | finished (v : Payload)
  | error (msg : String)
  | cancelled
deriving Repr, DecidableEq

/-- `future.done()`: true once finished (with result or exception) or
cancelled. -/
def FutState.isDone : FutState → Bool
  | FutState.pending => false
  | _ => true

/-- `future.cancelled()`. -/
def FutState.isCancelled : FutState → Bool
  | FutState.cancelled => true
  | _ => false

/-- `future.set_result(v)`: only legal on a pending future
(`InvalidStateError`, modelled as `none`, otherwise). -/
def futSetResult (fs : FutState) (v : Payload) : Option FutState :=
  match fs with
  | FutState.pending => Option.some (FutState.finished v)
  | _ => Option.none

/-- `future.set_exception(e)`: only legal on a pending future. -/
def futSetException (fs : FutState) (msg : String) : Option FutState :=
  match fs with
  | FutState.pending => Option.some (FutState.error msg)
  | _ => Option.none

/-- `future.cancel()`: cancels a pending (or already cancelled) future and
reports whether the future is now cancelled. -/
def futCancel (fs : FutState) : FutState × Bool :=
  match fs with
  | FutState.pending => (FutState.cancelled, true)
  | FutState.cancelled => (FutState.cancelled, true)
  | other => (other, false)

/-- The executor's outstanding-request table (`self._requests`). -/
abbrev ReqMap : Type := List (String × FutState)

/-! ## RequestExecutor (`_send_message`, `_send_request`, `_cancel_request`,
`_handle_message`) -/

/-- `RequestExecutor._send_message`: append the queued message to the
out-queue (`put_nowait`) and return `True` unconditionally. -/
def executor_send_message (out_queue : List QueuedMessage) (to_pid : String)
    (wrapper : MessageWrapper) : List QueuedMessage × Bool :=
  (out_queue ++ [⟨to_pid, wrapper⟩], true)

/-- Python truthiness of the `timeout` argument (`elif timeout:`):
`None` and `0` are falsy. -/
def timeoutTruthy : Option Int → Bool
  | Option.none => false
  | Option.some n => n != 0

/-- `RequestExecutor._send_request` under `req_lock`.  The envelope is
`MessageWrapper(self._pid, ident, request)` with `ref` defaulted to `None`
and `ident` the freshly generated random identifier.  Returns the updated
requests map and out-queue, the final state of the caller's future, and
whether a `_cancel_request` task was scheduled; `none` models an exception
escaping from a `set_exception` call on a non-pending future.  (When
`_send_message` reports failure the future object failed here is the same
object stored in the map; that branch is dead — see the send-path theorem —
so the by-value split is immaterial.) -/
def send_request (self_pid : String) (requests : ReqMap)
    (out_queue : List QueuedMessage) (to_pid : String) (request : Payload)
    (fut : FutState) (ident : String) (timeout : Option Int) :
    Option (ReqMap × List QueuedMessage × FutState × Bool) :=
  let message : MessageWrapper :=
    ⟨Option.some self_pid, Option.some ident, request, Option.none⟩
  if (alookup ident requests).isSome then
    match futSetException fut "Duplicate request identifier" with
    | Option.none => Option.none
    | Option.some f2 => Option.some (requests, out_queue, f2, false)
  else
    let requests2 := aset ident fut requests
    let sent := executor_send_message out_queue to_pid message
    if sent.2 = false then
      match futSetException fut "Request could not be processed" with
      | Option.none => Option.none
      | Option.some f2 =>
          Option.some (requests2, sent.1, f2, false)
    else
      Option.some (requests2, sent.1, fut, timeoutTruthy timeout)

/-- `RequestExecutor._cancel_request` under `req_lock` (after its optional
sleep): cancel the future iff it is still present and not done.  The boolean
reports whether `cancel()` was invoked. -/
def cancel_request (requests : ReqMap) (ident : String) : ReqMap × Bool :=
  match alookup ident requests with
  | Option.none => (requests, false)
  | Option.some fs =>
      if fs.isDone then (requests, false)
      else (aset ident (futCancel fs).1 requests, true)

/-- The sweep at the end of `_handle_message`: retain only still-pending
entries (`{ident: req for ident, req in self._requests.items() if not
req.done()}`). -/
def sweep (requests : ReqMap) : ReqMap :=
  requests.filter (fun p => !(p.2.isDone))

/-- `RequestExecutor._handle_message` under `req_lock`: on an envelope whose
`ref` is truthy, fulfil the matching non-cancelled future with the payload,
mark the envelope handled whenever a matching entry exists, and sweep done
entries; `none` models `InvalidStateError` escaping from `set_result`. -/
def handle_message (requests : ReqMap) (received : MessageWrapper) :
    Option (ReqMap × Bool) :=
  match refTruthy received.ref with
  | Option.none => Option.some (requests, false)
  | Option.some key =>
      match alookup key requests with
      | Option.none => Option.some (sweep requests, false)
      | Option.some fs =>
          if fs.isCancelled then Option.some (sweep requests, true)
          else
            match futSetResult fs received.message with
            | Option.none => Option.none
            | Option.some f2 =>
                Option.some (sweep (aset key f2 requests), true)

/-- Every future stored in the requests table is pending or cancelled: a
finished future is swept out under the same `req_lock` hold that finished
it, and failed futures are never inserted. -/
def reqInv (requests : ReqMap) : Prop :=
  ∀ p ∈ requests, p.2 = FutState.pending ∨ p.2 = FutState.cancelled

/-- An operation mutating the executor's requests map, always under
`req_lock`: a `submit` call inserts a fresh pending future via
`_send_request`; a timeout task runs `_cancel_request`; the caller of
`submit` may cancel its future directly; the poll thread delivers an
envelope to `_handle_message`. -/
inductive ExecOp where
  | submitOp (ident to_pid : String) (request : Payload) (timeout : Option Int)
  | cancelOp (ident : String)
  | externalCancelOp (ident : String)
  | deliverOp (env : MessageWrapper)

/-- Apply one executor operation to the requests map and out-queue. -/
def execApply (self_pid : String) (st : ReqMap × List QueuedMessage) :
    ExecOp → ReqMap × List QueuedMessage
  | ExecOp.submitOp ident to_pid request timeout =>
      match send_request self_pid st.1 st.2 to_pid request FutState.pending
          ident timeout with
      | Option.none => st
      | Option.some (reqs, outq, _, _) => (reqs, outq)
  | ExecOp.cancelOp ident => ((cancel_request st.1 ident).1, st.2)
  | ExecOp.externalCancelOp ident =>
      match alookup ident st.1 with
      | Option.none => st
      | Option.some fs => (aset ident (futCancel fs).1 st.1, st.2)
  | ExecOp.deliverOp env =>
      match handle_message st.1 env with
      | Option.none => st
      | Option.some (reqs, _) => (reqs, st.2)

/-- The executor state reached from a fresh executor (`_requests = {}`,
empty out-queue) by a sequence of operations. -/
def execReach (self_pid : String) (ops : List ExecOp) :
    ReqMap × List QueuedMessage :=
  ops.foldl (execApply self_pid) ([], [])

/-! ## MessageProcessor (`stop`, `_poll_messages`, `_reply_with_error`) -/

/-- The observable outcome of one call of the subclass hook
`_process_message`: a returned value (`None`, `True` or `False`, the poll
loop only tests `is False`) or a raised exception. -/
inductive HandlerOutcome where
  | returns (ret : Option Bool)
  | raises
deriving Repr, DecidableEq

/-- The payload `ExchangeError('Exception during message processing', True)`
built in the poll loop: `exc_info is True` is replaced by the rendered
traceback.  `oid` is the identity of the fresh instance. -/
def errPayload (oid : Nat) (trace : String) : Payload :=
  Payload.msg
    ⟨oid, "ExchangeError",
      [PyVal.str "Exception during message processing", PyVal.str trace]⟩

/-- `MessageProcessor._reply_with_error`: if the failing envelope itself
carried an `ExchangeError`, log it and send nothing (returning `False`);
otherwise `send_noreply(from_message.from_pid, errmsg, from_message.ident)`,
i.e. send one envelope `MessageWrapper(self._pid, None, errmsg,
from_message.ident)` to the original sender.  The result pairs the list of
envelopes sent (tagged with their recipient) with the returned boolean. -/
def reply_with_error (self_pid : String) (from_message : MessageWrapper)
    (errmsg : Payload) : List (Option String × MessageWrapper) × Bool :=
  if isExchangeError from_message.message then ([], false)
  else
    ([(from_message.from_pid,
        ⟨Option.some self_pid, Option.none, errmsg, from_message.ident⟩)],
      true)

/-- The loop outcome of `_poll_messages` over a finite stream of received
envelopes: the envelopes dispatched to the handler, the error replies sent,
and whether the loop exited (`true`) or consumed the whole stream and is
still polling (`false`). -/
structure PollResult where
  dispatched : List MessageWrapper
  sends : List (Option String × MessageWrapper)
  stopped : Bool
deriving Repr, DecidableEq

/-- `MessageProcessor._poll_messages`: dequeue an envelope; exit on the
literal `'stop'` payload without dispatching; otherwise dispatch to the
handler, exiting if it returns `False` and replying with an `ExchangeError`
if it raises (each raise renders one traceback; a single `oid`/`trace` pair
stands in for the fresh instances). -/
def poll_messages (self_pid : String)
    (handler : MessageWrapper → HandlerOutcome) (oid : Nat) (trace : String) :
    List MessageWrapper → PollResult
  | [] => ⟨[], [], false⟩
  | env :: rest =>
      if isStopMsg env.message then ⟨[], [], true⟩
      else
        match handler env with
        | HandlerOutcome.returns ret =>
            if ret = Option.some false then ⟨[env], [], true⟩
            else
              let r := poll_messages self_pid handler oid trace rest
              ⟨env :: r.dispatched, r.sends, r.stopped⟩
        | HandlerOutcome.raises =>
            let sent := reply_with_error self_pid env (errPayload oid trace)
            let r := poll_messages self_pid handler oid trace rest
            ⟨env :: r.dispatched, sent.1 ++ r.sends, r.stopped⟩

/-- `MessageProcessor.stop`: `send_noreply(self._pid, 'stop')`, i.e. enqueue
`MessageWrapper(self._pid, None, 'stop', None)` addressed to our own pid. -/
def processor_stop (self_pid : String) : String × MessageWrapper :=
  (self_pid,
    ⟨Option.some self_pid, Option.none, Payload.prim (PyVal.str "stop"),
      Option.none⟩)

/-! ## `Exchange.recv` (client side)

The condition-wait results and the per-wakeup `recv` command replies are
supplied as oracles; the fuel argument bounds the number of loop iterations
so the loop is a total function, and termination is expressed as a result
independent of any sufficiently large fuel. -/

/-- The inner `while` of `Exchange.recv`: `i` counts condition-waits
performed, `msg` is the current value of `message`; `none` means the fuel
ran out before the loop exited. -/
def recv_wait_loop (blocking timeoutSet : Bool) (waits : Nat → Bool)
    (recvs : Nat → Option MessageWrapper) :
    Nat → Nat → Option MessageWrapper → Option (Option MessageWrapper × Nat)
  | 0, _, _ => Option.none
  | fuel + 1, i, msg =>
      if msg.isNone && (blocking || timeoutSet) then
        let locked := waits i
        let msg2 := if locked then recvs i else msg
        if !locked || msg2.isSome || timeoutSet then
          Option.some (msg2, i + 1)
        else recv_wait_loop blocking timeoutSet waits recvs fuel (i + 1) msg2
      else Option.some (msg, i)

/-- `Exchange.recv`: acquire the shared condition (always succeeding when
`blocking`, with outcome `nbAcq` otherwise), issue an initial `recv` command
(`recv0`), then run the wait loop.  Returns the message produced and the
number of condition-waits performed. -/
def exchange_recv (blocking nbAcq timeoutSet : Bool)
    (recv0 : Option MessageWrapper) (waits : Nat → Bool)
    (recvs : Nat → Option MessageWrapper) (fuel : Nat) :
    Option (Option MessageWrapper × Nat) :=
  let locked := if blocking then true else nbAcq
  if locked then recv_wait_loop blocking timeoutSet waits recvs fuel 0 recv0
  else Option.some (Option.none, 0)

/-! ## `ExchangeMessage.__init__` (payload construction) -/

/-- One entry of a `_fields` schema: `(name, type-or-none,
default-or-absent)`. -/
structure FieldSpec where
  name : String
  ftype : Option PyType
  default : Option PyVal
deriving Repr, DecidableEq

/-- Resolve the value for the field at position `idx`: positional argument,
else keyword argument, else declared default, else
`TypeError("Property not provided to constructor")`. -/
def resolveVal (args : List PyVal) (kwargs : List (String × PyVal))
    (idx : Nat) (f : FieldSpec) : Except String PyVal :=
  if h : idx < args.length then Except.ok (args.get ⟨idx, h⟩)
  else
    match alookup f.name kwargs with
    | Option.some v => Except.ok v
    | Option.none =>
        match f.default with
        | Option.some d => Except.ok d
        | Option.none =>
            Except.error ("Property not provided to constructor: " ++ f.name)

/-- The per-field type check: a `TypeError` when the value is not `None`,
a type is declared, and `isinstance` fails. -/
def checkVal (f : FieldSpec) (v : PyVal) : Except String PyVal :=
  match v, f.ftype with
  | PyVal.none, _ => Except.ok v
  | _, Option.none => Except.ok v
  | _, Option.some t =>
      if isinstance v t then Except.ok v
      else Except.error ("Incorrect type for property " ++ f.name)

/-- Resolve and check one field. -/
def initField (args : List PyVal) (kwargs : List (String × PyVal))
    (idx : Nat) (f : FieldSpec) : Except String PyVal :=
  match resolveVal args kwargs idx f with
  | Except.error e => Except.error e
  | Except.ok v => checkVal f v

/-- The `for idx, name in enumerate(names)` loop, with `idx0` the position
of the first remaining field. -/
def initFields (args : List PyVal) (kwargs : List (String × PyVal)) :
    List FieldSpec → Nat → Except String (List PyVal)
  | [], _ => Except.ok []
  | f :: rest, idx0 =>
      match initField args kwargs idx0 f with
      | Except.error e => Except.error e
      | Except.ok v =>
          match initFields args kwargs rest (idx0 + 1) with
          | Except.error e => Except.error e
          | Except.ok vs => Except.ok (v :: vs)

/-- `ExchangeMessage.__init__`: the arity guard, then per-field resolution
and type checking, producing `self._values`. -/
def msg_init (fields : List FieldSpec) (args : List PyVal)
    (kwargs : List (String × PyVal)) : Except String (List PyVal) :=
  if fields.length < args.length + kwargs.length then
    Except.error "Too many arguments to constructor"
  else initFields args kwargs fields 0

/-- Whether construction succeeded. -/
def exceptOk {α : Type} : Except String α → Bool
  | Except.ok _ => true
  | Except.error _ => false

/-- `ExchangeError(value, exc_info)` with object identity `oid`: `_fields =
('value', 'exc_info')`, so `_values = (value, exc_info)` (with `exc_info is
True` already replaced by the rendered traceback string). -/
def mkExchangeError (oid : Nat) (value excInfo : PyVal) : MsgObj :=
  ⟨oid, "ExchangeError", [value, excInfo]⟩

/-! ## Helper lemmas -/

theorem alookup_aset_self {β : Type} (k : String) (v : β) :
    ∀ l : List (String × β), alookup k (aset k v l) = Option.some v := by
  intro l
  induction l with
  | nil => simp [aset, alookup]
  | cons p rest ih =>
      obtain ⟨k2, w⟩ := p
      by_cases h : k2 = k
      · simp [aset, alookup, h]
      · simp [aset, alookup, h, ih]

theorem alookup_aset_ne {β : Type} (k k2 : String) (v : β) (h : k2 ≠ k) :
    ∀ l : List (String × β), alookup k2 (aset k v l) = alookup k2 l := by
  intro l
  induction l with
  | nil =>
      simp only [aset, alookup]
      rw [if_neg (fun hk => h hk.symm)]
  | cons p rest ih =>
      obtain ⟨k3, w⟩ := p
      by_cases h3 : k3 = k
      · subst h3
        simp only [aset, alookup, if_pos rfl]
        rw [if_neg (fun hk => h hk.symm), if_neg (fun hk => h hk.symm)]
      · simp only [aset, alookup, if_neg h3]
        by_cases h4 : k3 = k2
        · simp [alookup, h4]
        · simp [alookup, h4, ih]

theorem alookup_mem {β : Type} (k : String) (v : β) :
    ∀ l : List (String × β), alookup k l = Option.some v → (k, v) ∈ l := by
  intro l
  induction l with
  | nil => intro h; simp [alookup] at h
  | cons p rest ih =>
      obtain ⟨k2, w⟩ := p
      intro h
      by_cases h2 : k2 = k
      · subst h2
        simp [alookup] at h
        simp [h]
      · simp [alookup, h2] at h
        exact List.mem_cons_of_mem _ (ih h)

theorem aset_aset {β : Type} (k : String) (v w : β) :
    ∀ l : List (String × β), aset k v (aset k w l) = aset k v l := by
  intro l
  induction l with
  | nil => simp [aset]
  | cons p rest ih =>
      obtain ⟨k2, u⟩ := p
      by_cases h : k2 = k
      · simp [aset, h]
      · simp [aset, h, ih]

theorem sumQueueLens_aset (k : String) (v : List MessageWrapper) :
    ∀ l : List (String × List MessageWrapper),
      sumQueueLens (aset k v l) + ((alookup k l).getD []).length
        = sumQueueLens l + v.length := by
  intro l
  induction l with
  | nil => simp [aset, alookup, sumQueueLens]
  | cons p rest ih =>
      obtain ⟨k2, w⟩ := p
      by_cases h : k2 = k
      · simp [aset, alookup, h, sumQueueLens]
        omega
      · simp only [aset, alookup, if_neg h, sumQueueLens, List.map_cons,
          List.sum_cons]
        simp only [sumQueueLens] at ih
        omega

/-- `stepSend` rewrites the queue map by appending the envelope to the
recipient's (possibly fresh) queue. -/
theorem stepSend_queue (s : BrokerState) (to_pid : String)
    (env : MessageWrapper) :
    (stepSend s to_pid env).queue
      = aset to_pid (queueAt to_pid s ++ [env]) s.queue := by
  unfold stepSend queueAt
  cases h : alookup to_pid s.queue with
  | none =>
      simp only [h, alookup_aset_self, Option.getD_some, Option.getD_none,
        List.nil_append]
      exact aset_aset to_pid [env] [] s.queue
  | some w => simp [h]

theorem stepSend_pending (s : BrokerState) (to_pid : String)
    (env : MessageWrapper) :
    (stepSend s to_pid env).pending = s.pending + 1 := by
  unfold stepSend
  cases h : alookup to_pid s.queue <;> simp [h]

theorem brokerStep_pendingInv (s : BrokerState) (c : Cmd)
    (h : pendingInv s) : pendingInv (brokerStep s c).1 := by
  cases c with
  | send to_pid env =>
      unfold pendingInv at h ⊢
      have hq := stepSend_queue s to_pid env
      have hp := stepSend_pending s to_pid env
      have hsum := sumQueueLens_aset to_pid (queueAt to_pid s ++ [env]) s.queue
      simp only [brokerStep]
      rw [hp, hq]
      have hq2 : (alookup to_pid s.queue).getD [] = queueAt to_pid s := rfl
      rw [hq2] at hsum
      simp only [List.length_append, List.length_cons, List.length_nil] at hsum
      omega
  | recv to_pid =>
      unfold pendingInv at h ⊢
      simp only [brokerStep]
      unfold stepRecv
      cases hq : alookup to_pid s.queue with
      | none => simpa using h
      | some q =>
          cases q with
          | nil => simpa [hq] using h
          | cons e es =>
              simp only
              have hsum := sumQueueLens_aset to_pid es s.queue
              rw [hq] at hsum
              simp only [Option.getD_some, List.length_cons] at hsum
              omega
  | status => simpa [brokerStep] using h

theorem brokerRun_pendingInv (cs : List Cmd) :
    ∀ s : BrokerState, pendingInv s → pendingInv (brokerRunState s cs) := by
  induction cs with
  | nil => intro s h; simpa [brokerRunState, brokerRun] using h
  | cons c rest ih =>
      intro s h
      have h1 := brokerStep_pendingInv s c h
      simpa [brokerRunState, brokerRun] using ih (brokerStep s c).1 h1

theorem brokerStep_statOk (s : BrokerState) (c : Cmd) :
    statOk (brokerStep s c).2 = true := by
  cases c with
  | send to_pid env => simp [brokerStep, statOk]
  | recv to_pid => simp [brokerStep, statOk]
  | status => simp [brokerStep, statOk]

theorem brokerRun_statOk (cs : List Cmd) :
    ∀ s : BrokerState, ((brokerRun s cs).2.all statOk) = true := by
  induction cs with
  | nil => intro s; simp [brokerRun]
  | cons c rest ih =>
      intro s
      simp only [brokerRun, List.all_cons]
      rw [brokerStep_statOk, ih]
      rfl

theorem brokerRunState_cons (s : BrokerState) (c : Cmd) (rest : List Cmd) :
    brokerRunState s (c :: rest) = brokerRunState (brokerStep s c).1 rest := by
  simp only [brokerRunState, brokerRun]

theorem recvdFor_send (s : BrokerState) (r p : String) (env : MessageWrapper)
    (rest : List Cmd) :
    recvdFor s r (Cmd.send p env :: rest)
      = recvdFor (stepSend s p env) r rest := by
  simp [recvdFor, brokerStep]

theorem recvdFor_status (s : BrokerState) (r : String) (rest : List Cmd) :
    recvdFor s r (Cmd.status :: rest) = recvdFor s r rest := by
  simp [recvdFor, brokerStep]

theorem recvdFor_recv_none (s s1 : BrokerState) (r p : String)
    (rest : List Cmd) (h : stepRecv s p = (s1, Option.none)) :
    recvdFor s r (Cmd.recv p :: rest) = recvdFor s1 r rest := by
  simp [recvdFor, brokerStep, h]

theorem recvdFor_recv_some (s s1 : BrokerState) (r p : String)
    (rest : List Cmd) (e : MessageWrapper)
    (h : stepRecv s p = (s1, Option.some e)) :
    recvdFor s r (Cmd.recv p :: rest)
      = if p = r then e :: recvdFor s1 r rest else recvdFor s1 r rest := by
  by_cases hpr : p = r
  · subst hpr
    simp [recvdFor, brokerStep, h]
  · simp [recvdFor, brokerStep, h, hpr]

/-- Queue contents after a `send`: the envelope is appended at the tail of
the recipient's queue; other recipients are untouched. -/
theorem queueAt_stepSend (s : BrokerState) (r p : String)
    (env : MessageWrapper) :
    queueAt r (stepSend s p env)
      = if p = r then queueAt r s ++ [env] else queueAt r s := by
  unfold queueAt
  rw [stepSend_queue]
  by_cases hpr : p = r
  · subst hpr
    rw [alookup_aset_self]
    simp [queueAt]
  · rw [alookup_aset_ne p r _ (fun hh => hpr hh.symm)]
    simp [hpr]

/-- A `recv` on an absent or empty queue returns `None` and leaves the whole
broker state unchanged. -/
theorem stepRecv_empty (s : BrokerState) (p : String)
    (h : queueAt p s = []) : stepRecv s p = (s, Option.none) := by
  unfold queueAt at h
  unfold stepRecv
  cases hq : alookup p s.queue with
  | none => rfl
  | some q =>
      rw [hq] at h
      simp only [Option.getD_some] at h
      subst h
      rfl

/-- A `recv` on a non-empty queue pops its head. -/
theorem stepRecv_pop (s : BrokerState) (p : String) (e : MessageWrapper)
    (es : List MessageWrapper) (h : alookup p s.queue = Option.some (e :: es)) :
    stepRecv s p
      = ({ pending := s.pending - 1,
           processed :=
             aset p (((alookup p s.processed).getD 0) + 1) s.processed,
           queue := aset p es s.queue }, Option.some e) := by
  unfold stepRecv
  rw [h]

/-- Per-recipient FIFO: over any command sequence, the envelopes already
returned by `recv`, followed by the envelopes still queued, are exactly the
envelopes accepted by `send` for that recipient, in acceptance order. -/
theorem brokerRun_fifo (cs : List Cmd) :
    ∀ (s : BrokerState) (r : String),
      recvdFor s r cs ++ queueAt r (brokerRunState s cs)
        = queueAt r s ++ sentFor r cs := by
  induction cs with
  | nil =>
      intro s r
      simp [recvdFor, brokerRunState, brokerRun, sentFor]
  | cons c rest ih =>
      intro s r
      cases c with
      | send p env =>
          rw [recvdFor_send, brokerRunState_cons]
          have hstep :
              (brokerStep s (Cmd.send p env)).1 = stepSend s p env := rfl
          rw [hstep, ih (stepSend s p env) r, queueAt_stepSend]
          by_cases hpr : p = r
          · rw [if_pos hpr]
            simp [sentFor, hpr, List.append_assoc]
          · rw [if_neg hpr]
            simp [sentFor, hpr]
      | recv p =>
          rw [brokerRunState_cons]
          have hstep :
              (brokerStep s (Cmd.recv p)).1 = (stepRecv s p).1 := by
            simp [brokerStep]
          rw [hstep]
          have hsent : sentFor r (Cmd.recv p :: rest) = sentFor r rest := by
            simp [sentFor]
          rw [hsent]
          cases hq : alookup p s.queue with
          | none =>
              have hr := stepRecv_empty s p (by simp [queueAt, hq])
              rw [recvdFor_recv_none s s r p rest hr, hr]
              exact ih s r
          | some q =>
              cases q with
              | nil =>
                  have hr := stepRecv_empty s p (by simp [queueAt, hq])
                  rw [recvdFor_recv_none s s r p rest hr, hr]
                  exact ih s r
              | cons e es =>
                  have hr := stepRecv_pop s p e es hq
                  rw [recvdFor_recv_some s _ r p rest e hr, hr]
                  simp only
                  set s1 : BrokerState :=
                    { pending := s.pending - 1,
                      processed :=
                        aset p (((alookup p s.processed).getD 0) + 1)
                          s.processed,
                      queue := aset p es s.queue } with hs1
                  have hq1 : queueAt r s1
                      = if p = r then es else queueAt r s := by
                    unfold queueAt
                    rw [hs1]
                    by_cases hpr : p = r
                    · subst hpr
                      simp [alookup_aset_self]
                    · simp only
                      rw [alookup_aset_ne p r _ (fun hh => hpr hh.symm)]
                      simp [hpr]
                  have hqs : queueAt p s = e :: es := by simp [queueAt, hq]
                  by_cases hpr : p = r
                  · subst hpr
                    rw [if_pos rfl, List.cons_append, ih s1 p, hq1,
                      if_pos rfl, hqs]
                    simp
                  · rw [if_neg hpr, ih s1 r, hq1, if_neg hpr]
      | status =>
          rw [recvdFor_status, brokerRunState_cons]
          have hstep : (brokerStep s Cmd.status).1 = s := rfl
          rw [hstep, ih s r]
          simp [sentFor]

/-! ## Executor lemmas -/

theorem mem_aset {β : Type} (k : String) (v : β) (p : String × β) :
    ∀ l : List (String × β), p ∈ aset k v l → p = (k, v) ∨ p ∈ l := by
  intro l
  induction l with
  | nil =>
      intro h
      simp [aset] at h
      exact Or.inl h
  | cons q rest ih =>
      obtain ⟨k2, w⟩ := q
      intro h
      by_cases hk : k2 = k
      · have he : aset k v ((k2, w) :: rest) = (k2, v) :: rest := by
          simp [aset, hk]
        rw [he] at h
        rcases List.mem_cons.mp h with h2 | h2
        · rw [hk] at h2
          exact Or.inl h2
        · exact Or.inr (List.mem_cons_of_mem _ h2)
      · have he : aset k v ((k2, w) :: rest) = (k2, w) :: aset k v rest := by
          simp [aset, hk]
        rw [he] at h
        rcases List.mem_cons.mp h with h2 | h2
        · exact Or.inr (by simp [h2])
        · rcases ih h2 with h3 | h3
          · exact Or.inl h3
          · exact Or.inr (List.mem_cons_of_mem _ h3)

theorem isDone_false_pending (fs : FutState) (h : fs.isDone = false) :
    fs = FutState.pending := by
  cases fs <;> simp [FutState.isDone] at h ⊢

theorem reqInv_sweep (l : ReqMap) : reqInv (sweep l) := by
  intro p hp
  have h := (List.mem_filter.mp hp).2
  have h2 : p.2.isDone = false := by simpa using h
  exact Or.inl (isDone_false_pending p.2 h2)

theorem reqInv_aset_of (l : ReqMap) (k : String) (fs : FutState)
    (hinv : reqInv l)
    (hfs : fs = FutState.pending ∨ fs = FutState.cancelled) :
    reqInv (aset k fs l) := by
  intro p hp
  rcases mem_aset k fs p l hp with h | h
  · rw [h]
    exact hfs
  · exact hinv p h

theorem execApply_reqInv (self_pid : String)
    (st : ReqMap × List QueuedMessage) (op : ExecOp) (hinv : reqInv st.1) :
    reqInv (execApply self_pid st op).1 := by
  cases op with
  | submitOp ident to_pid request timeout =>
      cases hdup : (alookup ident st.1).isSome
      · have hs : send_request self_pid st.1 st.2 to_pid request
            FutState.pending ident timeout
            = Option.some (aset ident FutState.pending st.1,
                st.2 ++ [⟨to_pid, ⟨Option.some self_pid, Option.some ident,
                  request, Option.none⟩⟩],
                FutState.pending, timeoutTruthy timeout) := by
          simp [send_request, hdup, executor_send_message]
        have he : execApply self_pid st
            (ExecOp.submitOp ident to_pid request timeout)
            = (aset ident FutState.pending st.1,
                st.2 ++ [⟨to_pid, ⟨Option.some self_pid, Option.some ident,
                  request, Option.none⟩⟩]) := by
          simp [execApply, hs]
        rw [he]
        exact reqInv_aset_of st.1 ident FutState.pending hinv (Or.inl rfl)
      · have hs : send_request self_pid st.1 st.2 to_pid request
            FutState.pending ident timeout
            = Option.some (st.1, st.2,
                FutState.error "Duplicate request identifier", false) := by
          simp [send_request, hdup, futSetException]
        have he : execApply self_pid st
            (ExecOp.submitOp ident to_pid request timeout) = (st.1, st.2) := by
          simp [execApply, hs]
        rw [he]
        exact hinv
  | cancelOp ident =>
      cases h : alookup ident st.1 with
      | none =>
          show reqInv (cancel_request st.1 ident).1
          have hc : cancel_request st.1 ident = (st.1, false) := by
            simp [cancel_request, h]
          rw [hc]
          exact hinv
      | some fs =>
          show reqInv (cancel_request st.1 ident).1
          by_cases hd : fs.isDone
          · have hc : cancel_request st.1 ident = (st.1, false) := by
              simp [cancel_request, h, hd]
            rw [hc]
            exact hinv
          · have hp := isDone_false_pending fs (by simpa using hd)
            have hc : cancel_request st.1 ident
                = (aset ident FutState.cancelled st.1, true) := by
              rw [hp] at h
              simp [cancel_request, h, FutState.isDone, futCancel]
            rw [hc]
            exact reqInv_aset_of st.1 ident FutState.cancelled hinv
              (Or.inr rfl)
  | externalCancelOp ident =>
      cases h : alookup ident st.1 with
      | none => simpa [execApply, h] using hinv
      | some fs =>
          have hmem := alookup_mem ident fs st.1 h
          have hfs : fs = FutState.pending ∨ fs = FutState.cancelled :=
            hinv (ident, fs) hmem
          have hc : (futCancel fs).1 = FutState.cancelled := by
            rcases hfs with h2 | h2 <;> rw [h2] <;> rfl
          have he : execApply self_pid st (ExecOp.externalCancelOp ident)
              = (aset ident (futCancel fs).1 st.1, st.2) := by
            simp [execApply, h]
          rw [he]
          show reqInv (aset ident (futCancel fs).1 st.1)
          rw [hc]
          exact reqInv_aset_of st.1 ident FutState.cancelled hinv (Or.inr rfl)
  | deliverOp env =>
      cases hr : refTruthy env.ref with
      | none => simpa [execApply, handle_message, hr] using hinv
      | some key =>
          cases hl : alookup key st.1 with
          | none =>
              simpa [execApply, handle_message, hr, hl] using
                reqInv_sweep st.1
          | some fs =>
              by_cases hc : fs.isCancelled
              · simpa [execApply, handle_message, hr, hl, hc] using
                  reqInv_sweep st.1
              · cases hset : futSetResult fs env.message with
                | none =>
                    simpa [execApply, handle_message, hr, hl, hc, hset]
                      using hinv
                | some f2 =>
                    simpa [execApply, handle_message, hr, hl, hc, hset]
                      using reqInv_sweep (aset key f2 st.1)

theorem execReach_reqInv (self_pid : String) (ops : List ExecOp) :
    reqInv (execReach self_pid ops).1 := by
  have hgen : ∀ (os : List ExecOp) (st : ReqMap × List QueuedMessage),
      reqInv st.1 → reqInv (os.foldl (execApply self_pid) st).1 := by
    intro os
    induction os with
    | nil => intro st h; simpa using h
    | cons op rest ih =>
        intro st h
        exact ih (execApply self_pid st op) (execApply_reqInv self_pid st op h)
  exact hgen ops ([], []) (by intro p hp; simp at hp)

/-- **C1**: for every envelope processed by `_handle_message` on a request
table satisfying the (reachable-state, see `execReach_reqInv`) invariant
that stored futures are pending or cancelled: a truthy `ref` matching a
non-cancelled entry fulfils that future with the envelope's payload and
returns handled (`true`); whenever `ref` is truthy the resulting table is
the sweep (retaining exactly the not-yet-done entries) of the table after
the optional fulfilment; an untruthy `ref` or an unmatched key returns
unhandled (`false`). -/
theorem claim_C1_handle_message (requests : ReqMap) (env : MessageWrapper)
    (hinv : reqInv requests) :
    (refTruthy env.ref = Option.none →
        handle_message requests env = Option.some (requests, false))
    ∧ (∀ key, refTruthy env.ref = Option.some key →
        (alookup key requests = Option.none →
            handle_message requests env = Option.some (sweep requests, false))
        ∧ (alookup key requests = Option.some FutState.cancelled →
            handle_message requests env = Option.some (sweep requests, true))
        ∧ (∀ fs, alookup key requests = Option.some fs →
            fs ≠ FutState.cancelled →
            fs = FutState.pending ∧
              handle_message requests env
                = Option.some
                    (sweep (aset key (FutState.finished env.message) requests),
                      true))) := by
  constructor
  · intro hr
    simp [handle_message, hr]
  · intro key hr
    refine ⟨?_, ?_, ?_⟩
    · intro hl
      simp [handle_message, hr, hl]
    · intro hl
      simp [handle_message, hr, hl, FutState.isCancelled]
    · intro fs hl hnc
      have hmem := alookup_mem key fs requests hl
      have hfs := hinv (key, fs) hmem
      have hp : fs = FutState.pending := by
        rcases hfs with h | h
        · exact h
        · exact absurd h hnc
      subst hp
      refine ⟨rfl, ?_⟩
      simp [handle_message, hr, hl, FutState.isCancelled, futSetResult]

/-- Witness for C1 at a concrete table and envelope. -/
theorem claim_C1_handle_message_witness :
    handle_message [("a", FutState.pending)] sampleReply
      = Option.some
          (sweep (aset "a" (FutState.finished sampleReply.message)
            [("a", FutState.pending)]), true) :=
  (((claim_C1_handle_message [("a", FutState.pending)] sampleReply
      (by intro p hp; simp at hp; rw [hp]; exact Or.inl rfl)).2
    "a" (by decide)).2.2 FutState.pending (by decide) (by decide)).2

/-- **C2**: in every broker state reachable from the initial state by
send/recv/status commands the `pending` counter equals the total length of
the per-recipient queues, and every `status` reply reports
`total = sum(processed.values())`. -/
theorem claim_C2_broker_accounting (cs : List Cmd) :
    (brokerRunState brokerInit cs).pending
        = (sumQueueLens (brokerRunState brokerInit cs).queue : Int)
    ∧ ((brokerRun brokerInit cs).2.all statOk) = true :=
  ⟨brokerRun_pendingInv cs brokerInit rfl, brokerRun_statOk cs brokerInit⟩

/-- **C3**: per-recipient FIFO — the envelopes returned by successful `recv`
commands for a recipient, followed by the envelopes still queued for it, are
exactly the envelopes accepted by `send` for it in acceptance order; and a
`recv` against an absent or empty queue replies `None` and leaves the broker
state unchanged. -/
theorem claim_C3_broker_fifo :
    (∀ (cs : List Cmd) (r : String),
        recvdFor brokerInit r cs ++ queueAt r (brokerRunState brokerInit cs)
          = sentFor r cs)
    ∧ (∀ (s : BrokerState) (p : String), queueAt p s = [] →
        brokerStep s (Cmd.recv p) = (s, Reply.envr Option.none)) := by
  constructor
  · intro cs r
    have h := brokerRun_fifo cs brokerInit r
    have h0 : queueAt r brokerInit = [] := rfl
    rw [h0] at h
    simpa using h
  · intro s p h
    have hr := stepRecv_empty s p h
    simp [brokerStep, hr]

/-- Witness for C3 at a concrete command sequence and an empty queue. -/
theorem claim_C3_broker_fifo_witness :
    (recvdFor brokerInit "a"
          [Cmd.send "a" sampleEnv, Cmd.send "a" sampleEnv2, Cmd.recv "a"]
        ++ queueAt "a" (brokerRunState brokerInit
          [Cmd.send "a" sampleEnv, Cmd.send "a" sampleEnv2, Cmd.recv "a"])
      = sentFor "a"
          [Cmd.send "a" sampleEnv, Cmd.send "a" sampleEnv2, Cmd.recv "a"])
    ∧ brokerStep brokerInit (Cmd.recv "b")
        = (brokerInit, Reply.envr Option.none) :=
  ⟨claim_C3_broker_fifo.1
      [Cmd.send "a" sampleEnv, Cmd.send "a" sampleEnv2, Cmd.recv "a"] "a",
    claim_C3_broker_fifo.2 brokerInit "b" rfl⟩

/-- **C4**: `_send_request` on a duplicate ident fails the caller's (fresh,
pending) future with `'Duplicate request identifier'` and leaves the
requests map and out-queue unchanged; on a fresh ident it stores the future
under the ident, enqueues `(to_pid, envelope)` on the out-queue, leaves the
future pending and schedules cancellation iff a truthy timeout was given;
and `_cancel_request` cancels the future iff it is still present and not
done — a done future is never cancelled. -/
theorem claim_C4_send_request (self_pid : String) (requests : ReqMap)
    (out_queue : List QueuedMessage) (to_pid : String) (request : Payload)
    (ident : String) (timeout : Option Int) :
    ((alookup ident requests).isSome = true →
        send_request self_pid requests out_queue to_pid request
            FutState.pending ident timeout
          = Option.some (requests, out_queue,
              FutState.error "Duplicate request identifier", false))
    ∧ (alookup ident requests = Option.none →
        send_request self_pid requests out_queue to_pid request
            FutState.pending ident timeout
          = Option.some (aset ident FutState.pending requests,
              out_queue ++ [⟨to_pid, ⟨Option.some self_pid,
                Option.some ident, request, Option.none⟩⟩],
              FutState.pending, timeoutTruthy timeout))
    ∧ (∀ (reqs2 : ReqMap),
        (alookup ident reqs2 = Option.none →
            cancel_request reqs2 ident = (reqs2, false))
        ∧ (∀ fs, alookup ident reqs2 = Option.some fs → fs.isDone = true →
            cancel_request reqs2 ident = (reqs2, false))
        ∧ (∀ fs, alookup ident reqs2 = Option.some fs → fs.isDone = false →
            cancel_request reqs2 ident
              = (aset ident FutState.cancelled reqs2, true))) := by
  refine ⟨?_, ?_, ?_⟩
  · intro hdup
    simp [send_request, hdup, futSetException]
  · intro hfresh
    simp [send_request, hfresh, executor_send_message]
  · intro reqs2
    refine ⟨?_, ?_, ?_⟩
    · intro h
      simp [cancel_request, h]
    · intro fs h hd
      simp [cancel_request, h, hd]
    · intro fs h hd
      have hp := isDone_false_pending fs hd
      rw [hp] at h
      simp [cancel_request, h, FutState.isDone, futCancel]

/-- Witness for C4: duplicate ident, fresh ident, and the three cancel
cases, at concrete tables. -/
theorem claim_C4_send_request_witness :
    send_request "p" [("x", FutState.pending)] [] "t"
        (Payload.prim (PyVal.str "q")) FutState.pending "x" Option.none
      = Option.some ([("x", FutState.pending)], [],
          FutState.error "Duplicate request identifier", false)
    ∧ send_request "p" [] [] "t" (Payload.prim (PyVal.str "q"))
        FutState.pending "y" (Option.some 5)
      = Option.some ([("y", FutState.pending)],
          [⟨"t", ⟨Option.some "p", Option.some "y",
            Payload.prim (PyVal.str "q"), Option.none⟩⟩],
          FutState.pending, true)
    ∧ cancel_request [] "x" = ([], false)
    ∧ cancel_request [("x", FutState.finished (Payload.prim PyVal.none))] "x"
        = ([("x", FutState.finished (Payload.prim PyVal.none))], false)
    ∧ cancel_request [("x", FutState.pending)] "x"
        = ([("x", FutState.cancelled)], true) := by
  refine ⟨?_, ?_, ?_, ?_, ?_⟩
  · exact (claim_C4_send_request "p" [("x", FutState.pending)] [] "t"
      (Payload.prim (PyVal.str "q")) "x" Option.none).1 (by decide)
  · exact (claim_C4_send_request "p" [] [] "t"
      (Payload.prim (PyVal.str "q")) "y" (Option.some 5)).2.1 (by decide)
  · exact ((claim_C4_send_request "p" [] [] "t"
      (Payload.prim (PyVal.str "q")) "x" Option.none).2.2 []).1 (by decide)
  · exact ((claim_C4_send_request "p" [] [] "t"
      (Payload.prim (PyVal.str "q")) "x" Option.none).2.2
        [("x", FutState.finished (Payload.prim PyVal.none))]).2.1
      (FutState.finished (Payload.prim PyVal.none)) (by decide) (by decide)
  · exact ((claim_C4_send_request "p" [] [] "t"
      (Payload.prim (PyVal.str "q")) "x" Option.none).2.2
        [("x", FutState.pending)]).2.2 FutState.pending (by decide) (by decide)

/-- **C10**: the send path never reports rejection — the broker replies
`True` to every `send` command, `Exchange.send` passes that reply through,
`RequestExecutor._send_message` returns `True` unconditionally, and for
every `_send_request` call with a fresh ident the caller's future comes back
unchanged: the `'Request could not be processed'` failure branch is
unreachable. -/
theorem claim_C10_send_path :
    (∀ (s : BrokerState) (to_pid : String) (env : MessageWrapper),
        (brokerStep s (Cmd.send to_pid env)).2 = Reply.boolr true)
    ∧ (∀ (s : BrokerState) (to_pid : String) (env : MessageWrapper),
        (exchange_send s to_pid env).2 = Reply.boolr true)
    ∧ (∀ (out_queue : List QueuedMessage) (to_pid : String)
        (w : MessageWrapper),
        (executor_send_message out_queue to_pid w).2 = true)
    ∧ (∀ (self_pid : String) (requests : ReqMap)
        (out_queue : List QueuedMessage) (to_pid : String)
        (request : Payload) (fut : FutState) (ident : String)
        (timeout : Option Int),
        alookup ident requests = Option.none →
        send_request self_pid requests out_queue to_pid request fut ident
            timeout
          = Option.some (aset ident fut requests,
              out_queue ++ [⟨to_pid, ⟨Option.some self_pid,
                Option.some ident, request, Option.none⟩⟩],
              fut, timeoutTruthy timeout)) := by
  refine ⟨?_, ?_, ?_, ?_⟩
  · intro s to_pid env
    rfl
  · intro s to_pid env
    rfl
  · intro out_queue to_pid w
    rfl
  · intro self_pid requests out_queue to_pid request fut ident timeout hfresh
    simp [send_request, hfresh, executor_send_message]

/-- Witness for C10 at a concrete fresh-ident call. -/
theorem claim_C10_send_path_witness :
    send_request "p" [] [] "t" (Payload.prim (PyVal.int 1))
        FutState.pending "z" Option.none
      = Option.some ([("z", FutState.pending)],
          [⟨"t", ⟨Option.some "p", Option.some "z",
            Payload.prim (PyVal.int 1), Option.none⟩⟩],
          FutState.pending, false) :=
  claim_C10_send_path.2.2.2 "p" [] [] "t" (Payload.prim (PyVal.int 1))
    FutState.pending "z" Option.none (by decide)

/-- **C5**: when the handler raises on a dispatched (non-`'stop'`) envelope
whose payload is itself an `ExchangeError`, nothing is sent
(`_reply_with_error` returns `False`) and the loop continues; otherwise
exactly one `ExchangeError` reply is sent to the envelope's `from_pid`, with
`ref` equal to the envelope's `ident` and no reply ident of its own, and the
loop continues. -/
theorem claim_C5_error_reply (self_pid : String)
    (handler : MessageWrapper → HandlerOutcome) (oid : Nat) (trace : String)
    (env : MessageWrapper) (rest : List MessageWrapper)
    (hraise : handler env = HandlerOutcome.raises)
    (hnstop : isStopMsg env.message = false) :
    (isExchangeError env.message = true →
        reply_with_error self_pid env (errPayload oid trace) = ([], false)
        ∧ poll_messages self_pid handler oid trace (env :: rest)
            = ⟨env ::
                  (poll_messages self_pid handler oid trace rest).dispatched,
                (poll_messages self_pid handler oid trace rest).sends,
                (poll_messages self_pid handler oid trace rest).stopped⟩)
    ∧ (isExchangeError env.message = false →
        reply_with_error self_pid env (errPayload oid trace)
          = ([(env.from_pid,
                ⟨Option.some self_pid, Option.none, errPayload oid trace,
                  env.ident⟩)], true)
        ∧ isExchangeError (errPayload oid trace) = true
        ∧ poll_messages self_pid handler oid trace (env :: rest)
            = ⟨env ::
                  (poll_messages self_pid handler oid trace rest).dispatched,
                (env.from_pid,
                    ⟨Option.some self_pid, Option.none, errPayload oid trace,
                      env.ident⟩)
                  :: (poll_messages self_pid handler oid trace rest).sends,
                (poll_messages self_pid handler oid trace rest).stopped⟩) := by
  constructor
  · intro herr
    have hrep : reply_with_error self_pid env (errPayload oid trace)
        = ([], false) := by
      simp [reply_with_error, herr]
    refine ⟨hrep, ?_⟩
    simp [poll_messages, hnstop, hraise, hrep]
  · intro herr
    have hrep : reply_with_error self_pid env (errPayload oid trace)
        = ([(env.from_pid,
              ⟨Option.some self_pid, Option.none, errPayload oid trace,
                env.ident⟩)], true) := by
      simp [reply_with_error, herr]
    refine ⟨hrep, rfl, ?_⟩
    simp [poll_messages, hnstop, hraise, hrep]

/-- Witness for C5: a raising handler on an `ExchangeError` input (no
reply) and on an ordinary input (one `ExchangeError` reply). -/
theorem claim_C5_error_reply_witness :
    (reply_with_error "p"
          ⟨Option.some "w", Option.some "i",
            Payload.msg (mkExchangeError 3 (PyVal.str "boom")
              (PyVal.str "tb0")), Option.none⟩
          (errPayload 0 "tb")
        = ([], false))
    ∧ (reply_with_error "p" sampleEnv (errPayload 0 "tb")
        = ([(sampleEnv.from_pid,
              ⟨Option.some "p", Option.none, errPayload 0 "tb",
                sampleEnv.ident⟩)], true))
    ∧ poll_messages "p" (fun _ => HandlerOutcome.raises) 0 "tb" [sampleEnv]
        = ⟨[sampleEnv],
            [(sampleEnv.from_pid,
              ⟨Option.some "p", Option.none, errPayload 0 "tb",
                sampleEnv.ident⟩)], false⟩ := by
  refine ⟨?_, ?_, ?_⟩
  · exact ((claim_C5_error_reply "p" (fun _ => HandlerOutcome.raises) 0 "tb"
      ⟨Option.some "w", Option.some "i",
        Payload.msg (mkExchangeError 3 (PyVal.str "boom") (PyVal.str "tb0")),
        Option.none⟩ [] rfl (by decide)).1 (by decide)).1
  · exact ((claim_C5_error_reply "p" (fun _ => HandlerOutcome.raises) 0 "tb"
      sampleEnv [] rfl (by decide)).2 (by decide)).1
  · have h := ((claim_C5_error_reply "p" (fun _ => HandlerOutcome.raises) 0
      "tb" sampleEnv [] rfl (by decide)).2 (by decide)).2.2
    simpa [poll_messages] using h

/-- Counterexample to **C6** as stated: with a handler that returns `False`,
the poll loop terminates on an envelope whose message is not the literal
`'stop'`. -/
theorem claim_C6_counterexample :
    (poll_messages "p" (fun _ => HandlerOutcome.returns (Option.some false))
        0 "tb" [sampleEnv]).stopped = true
    ∧ isStopMsg sampleEnv.message = false := by
  refine ⟨by decide, by decide⟩

/-- **C6** (amended): the poll loop terminates exactly when it dequeues the
literal `'stop'` payload (never dispatched to the handler) *or* when the
handler returns exactly `False` on a dispatched envelope; and `stop()`
enqueues a `'stop'` sentinel with no reply ident addressed to the
processor's own pid. -/
theorem claim_C6_poll_stop (self_pid : String)
    (handler : MessageWrapper → HandlerOutcome) (oid : Nat) (trace : String)
    (envs : List MessageWrapper) :
    ((poll_messages self_pid handler oid trace envs).stopped
        = envs.any (fun env => isStopMsg env.message
            || (handler env == HandlerOutcome.returns (Option.some false))))
    ∧ ((poll_messages self_pid handler oid trace envs).dispatched.all
        (fun env => !(isStopMsg env.message)) = true)
    ∧ processor_stop self_pid
        = (self_pid, ⟨Option.some self_pid, Option.none,
            Payload.prim (PyVal.str "stop"), Option.none⟩) := by
  refine ⟨?_, ?_, rfl⟩
  · induction envs with
    | nil => simp [poll_messages]
    | cons env rest ih =>
        by_cases hstop : isStopMsg env.message
        · simp [poll_messages, hstop]
        · cases hh : handler env with
          | returns ret =>
              by_cases hretf : ret = Option.some false
              · subst hretf
                simp [poll_messages, hstop, hh]
              · have hne : (HandlerOutcome.returns ret
                    == HandlerOutcome.returns (Option.some false)) = false := by
                  simp [hretf]
                simp only [poll_messages, if_neg hstop, hh, if_neg hretf,
                  List.any_cons]
                rw [ih, hne]
                simp [hstop]
          | raises =>
              have hne : (HandlerOutcome.raises
                  == HandlerOutcome.returns (Option.some false)) = false := by
                simp
              simp only [poll_messages, if_neg hstop, hh, List.any_cons]
              rw [ih, hne]
              simp [hstop]
  · induction envs with
    | nil => simp [poll_messages]
    | cons env rest ih =>
        by_cases hstop : isStopMsg env.message
        · simp [poll_messages, hstop]
        · cases hh : handler env with
          | returns ret =>
              by_cases hretf : ret = Option.some false
              · subst hretf
                simp [poll_messages, hstop, hh]
              · simp only [poll_messages, if_neg hstop, hh, if_neg hretf,
                  List.all_cons]
                rw [ih]
                simp [hstop]
          | raises =>
              simp only [poll_messages, if_neg hstop, hh, List.all_cons]
              rw [ih]
              simp [hstop]

/-- **C7**: a blocking `recv` with a non-null timeout on a queue that stays
empty performs exactly one condition-wait, terminates (uniformly in any
positive iteration bound), and returns `None` — whatever the wait outcomes
are. -/
theorem claim_C7_recv_timeout (nbAcq : Bool) (waits : Nat → Bool)
    (fuel : Nat) (hfuel : 1 ≤ fuel) :
    exchange_recv true nbAcq true Option.none waits (fun _ => Option.none)
        fuel
      = Option.some (Option.none, 1) := by
  obtain ⟨n, rfl⟩ : ∃ n, fuel = n + 1 := ⟨fuel - 1, by omega⟩
  show recv_wait_loop true true waits (fun _ => Option.none) (n + 1) 0
      Option.none = Option.some (Option.none, 1)
  simp [recv_wait_loop, ite_self]

/-- Witness for C7 at concrete wait outcomes and fuel. -/
theorem claim_C7_recv_timeout_witness :
    exchange_recv true false true Option.none (fun _ => false)
        (fun _ => Option.none) 5
      = Option.some (Option.none, 1) :=
  claim_C7_recv_timeout false (fun _ => false) 5 (by decide)

/-- If any field of the schema fails to resolve-and-check at its position,
the whole field loop fails. -/
theorem initFields_error_of_field (args : List PyVal)
    (kwargs : List (String × PyVal)) :
    ∀ (fields : List FieldSpec) (idx0 j : Nat) (f : FieldSpec),
      fields.get? j = Option.some f →
      exceptOk (initField args kwargs (idx0 + j) f) = false →
      exceptOk (initFields args kwargs fields idx0) = false := by
  intro fields
  induction fields with
  | nil =>
      intro idx0 j f hf herr
      simp at hf
  | cons g rest ih =>
      intro idx0 j f hf herr
      cases j with
      | zero =>
          have hg : g = f := by simpa using hf
          rw [Nat.add_zero, ← hg] at herr
          cases hi : initField args kwargs idx0 g with
          | error e => simp [initFields, hi, exceptOk]
          | ok v =>
              rw [hi] at herr
              simp [exceptOk] at herr
      | succ j2 =>
          have hf2 : rest.get? j2 = Option.some f := by simpa using hf
          cases hi : initField args kwargs idx0 g with
          | error e => simp [initFields, hi, exceptOk]
          | ok v =>
              have harith : idx0 + (j2 + 1) = (idx0 + 1) + j2 := by omega
              rw [harith] at herr
              have h2 := ih (idx0 + 1) j2 f hf2 herr
              cases h3 : initFields args kwargs rest (idx0 + 1) with
              | error e => simp [initFields, hi, h3, exceptOk]
              | ok vs =>
                  rw [h3] at h2
                  simp [exceptOk] at h2

/-- A non-null value failing the `isinstance` check against the declared
type is a `TypeError`. -/
theorem checkVal_type_error (f : FieldSpec) (v : PyVal) (t : PyType)
    (hv : v ≠ PyVal.none) (hft : f.ftype = Option.some t)
    (hinst : isinstance v t = false) :
    checkVal f v
      = Except.error ("Incorrect type for property " ++ f.name) := by
  cases v with
  | none => exact absurd rfl hv
  | str s => simp [checkVal, hft, hinst]
  | int n => simp [checkVal, hft, hinst]
  | bool b => simp [checkVal, hft, hinst]

/-- **C8**: payload construction validates arity (more positional plus
keyword arguments than declared fields is a `TypeError`), rejects a field
with neither an argument nor a default, rejects a non-null value failing
the declared type check, and permits a null value when the declared type is
absent. -/
theorem claim_C8_msg_init_validation (fields : List FieldSpec)
    (args : List PyVal) (kwargs : List (String × PyVal)) :
    (fields.length < args.length + kwargs.length →
        msg_init fields args kwargs
          = Except.error "Too many arguments to constructor")
    ∧ (∀ j f, fields.get? j = Option.some f → args.length ≤ j →
        alookup f.name kwargs = Option.none → f.default = Option.none →
        exceptOk (msg_init fields args kwargs) = false)
    ∧ (∀ j f v t, fields.get? j = Option.some f →
        resolveVal args kwargs j f = Except.ok v → v ≠ PyVal.none →
        f.ftype = Option.some t → isinstance v t = false →
        exceptOk (msg_init fields args kwargs) = false)
    ∧ (∀ f : FieldSpec, f.ftype = Option.none →
        checkVal f PyVal.none = Except.ok PyVal.none) := by
  refine ⟨?_, ?_, ?_, ?_⟩
  · intro harity
    simp [msg_init, harity]
  · intro j f hf hargs hkw hdef
    by_cases harity : fields.length < args.length + kwargs.length
    · simp [msg_init, harity, exceptOk]
    · have hinit : exceptOk (initField args kwargs (0 + j) f) = false := by
        rw [Nat.zero_add]
        have hres : resolveVal args kwargs j f
            = Except.error ("Property not provided to constructor: "
                ++ f.name) := by
          rw [resolveVal, dif_neg (by omega)]
          simp [hkw, hdef]
        simp [initField, hres, exceptOk]
      have h := initFields_error_of_field args kwargs fields 0 j f hf hinit
      simpa [msg_init, harity] using h
  · intro j f v t hf hres hv hft hinst
    by_cases harity : fields.length < args.length + kwargs.length
    · simp [msg_init, harity, exceptOk]
    · have hinit : exceptOk (initField args kwargs (0 + j) f) = false := by
        rw [Nat.zero_add]
        have hchk := checkVal_type_error f v t hv hft hinst
        simp [initField, hres, hchk, exceptOk]
      have h := initFields_error_of_field args kwargs fields 0 j f hf hinit
      simpa [msg_init, harity] using h
  · intro f hft
    simp [checkVal]

/-- Witness for C8: arity overflow, a missing property, a type mismatch and
a permitted null, at concrete schemas. -/
theorem claim_C8_msg_init_validation_witness :
    msg_init [] [PyVal.int 1] []
        = Except.error "Too many arguments to constructor"
    ∧ exceptOk (msg_init [⟨"a", Option.none, Option.none⟩] [] []) = false
    ∧ exceptOk (msg_init [⟨"a", Option.some PyType.str, Option.none⟩]
        [PyVal.int 3] []) = false
    ∧ checkVal ⟨"a", Option.none, Option.none⟩ PyVal.none
        = Except.ok PyVal.none := by
  refine ⟨?_, ?_, ?_, ?_⟩
  · exact (claim_C8_msg_init_validation [] [PyVal.int 1] []).1 (by decide)
  · exact (claim_C8_msg_init_validation [⟨"a", Option.none, Option.none⟩]
      [] []).2.1 0 ⟨"a", Option.none, Option.none⟩ (by decide) (by decide)
      (by decide) (by decide)
  · exact (claim_C8_msg_init_validation
      [⟨"a", Option.some PyType.str, Option.none⟩] [PyVal.int 3] []).2.2.1
      0 ⟨"a", Option.some PyType.str, Option.none⟩ (PyVal.int 3) PyType.str
      (by decide) rfl (by decide) (by decide) (by decide)
  · exact (claim_C8_msg_init_validation [] [] []).2.2.2
      ⟨"a", Option.none, Option.none⟩ (by decide)

/-- Counterexample to **C9** as stated: two `ExchangeError` payloads
constructed from equal field values are *not* equal under Python `==`,
because `ExchangeMessage` defines no `__eq__` and instances compare by
object identity. -/
theorem claim_C9_counterexample :
    (mkExchangeError 0 (PyVal.str "x") (PyVal.str "tb")).clsName
        = (mkExchangeError 1 (PyVal.str "x") (PyVal.str "tb")).clsName
    ∧ (mkExchangeError 0 (PyVal.str "x") (PyVal.str "tb")).values
        = (mkExchangeError 1 (PyVal.str "x") (PyVal.str "tb")).values
    ∧ msgObjPyEq (mkExchangeError 0 (PyVal.str "x") (PyVal.str "tb"))
        (mkExchangeError 1 (PyVal.str "x") (PyVal.str "tb")) = false :=
  ⟨rfl, rfl, rfl⟩

/-- **C9** (amended): envelope (`MessageWrapper`) equality is tuple-equality
over the declared fields — two envelopes built from pairwise Python-equal
field values compare equal; payload (`ExchangeMessage`) instances, by
contrast, compare by object identity. -/
theorem claim_C9_equality :
    (∀ (f i r : Option String) (p q : Payload), payloadPyEq p q = true →
        wrapperPyEq ⟨f, i, p, r⟩ ⟨f, i, q, r⟩ = true)
    ∧ (∀ a b : MsgObj, msgObjPyEq a b = true ↔ a.objId = b.objId) := by
  constructor
  · intro f i r p q h
    simp [wrapperPyEq, h]
  · intro a b
    simp [msgObjPyEq]

/-- Witness for C9 at concrete envelopes and payloads. -/
theorem claim_C9_equality_witness :
    wrapperPyEq
        ⟨Option.some "a", Option.none, Payload.prim (PyVal.int 3),
          Option.none⟩
        ⟨Option.some "a", Option.none, Payload.prim (PyVal.int 3),
          Option.none⟩ = true :=
  claim_C9_equality.1 (Option.some "a") Option.none Option.none
    (Payload.prim (PyVal.int 3)) (Payload.prim (PyVal.int 3)) (by decide)

end Vonx
